import Mathlib

/-!
Verification of the DynamicString (MyString) core of the repository.

The C sources live in `src/ex3/MyString.c`.  A `MyString` owns a heap
buffer `_chars` and an explicit `_length` field; bytes are modelled as
natural numbers (the values of the unsigned chars that `memcmp` compares).
A possibly-NULL pointer argument is modelled as an `Option`.

The header `MyString.h` is not part of `src/`, but the unit tests inside
`MyString.c` pin the numeric values of its constants: the null-argument
test for `myStringCompare` expects `-999` for `MYSTR_ERROR_CODE`, the
retval tests print `-1` for `MYSTRING_ERROR` and `0` for
`MYSTRING_SUCCESS`, the compare tests expect `1` / `-1` / `0` for
`STR1_BIGGER` / `STR2_BIGGER` / `EQUAL_STRINGS`, and the equality tests
expect `1` / `0` for `TRUE` / `FALSE`.
-/

/-- Modelled from the spec: `MYSTR_ERROR_CODE`, the distinguished error
sentinel of the missing header, fixed to `-999` by the test
`myStringCompareNullCheck` which prints `Expected result : -999`. -/
def MYSTR_ERROR_CODE : Int := -999

/-- Modelled from the spec: `MYSTRING_SUCCESS` status value of the missing
header (tests compare it against printed `0`). -/
def MYSTRING_SUCCESS : Int := 0

/-- Modelled from the spec: `MYSTRING_ERROR` status value of the missing
header (the failing-retval tests print `Actual result : -1`). -/
def MYSTRING_ERROR : Int := -1

/-- Modelled from the spec: comparison constants of the missing header,
fixed by the compare tests (`Expected result : 1` for `STR1_BIGGER`,
`-1` for `STR2_BIGGER`, `0` for `EQUAL_STRINGS`). -/
def STR1_BIGGER : Int := 1

/-- Modelled from the spec: see `STR1_BIGGER`. -/
def STR2_BIGGER : Int := -1

/-- Modelled from the spec: see `STR1_BIGGER`. -/
def EQUAL_STRINGS : Int := 0

/-- Modelled from the spec: boolean-like results of the equality queries
(`myStringEqualNormal` expects `1` for equal, `0` for unequal). -/
def TRUE : Int := 1

/-- Modelled from the spec: see `TRUE`. -/
def FALSE : Int := 0

/-- Modelled from the spec: the length of the empty string. -/
def EMPTY_STRING_LENGTH : Nat := 0

/-- Modelled from the spec: `END_OF_C_STRING`, the NUL terminator byte. -/
def END_OF_C_STRING : Nat := 0

/-- `struct _MyString { char *_chars; unsigned long _length; }`.
`chars` is the full contents of the owned heap buffer (the allocation),
`len` is the `_length` field.  The two need not agree: a freshly
allocated instance holds a one-byte buffer `[0]` with `len = 0`. -/
structure MyString where
  chars : List Nat
  len : Nat
deriving DecidableEq

/-- Buffer/length coherence: the `_length` field never exceeds the number
of bytes actually resident in the buffer. -/
def MyString.Wf (s : MyString) : Prop := s.len ≤ s.chars.length

instance (s : MyString) : Decidable s.Wf := by
  unfold MyString.Wf; infer_instance

/-- `realloc` of a buffer to an exact new size: the old bytes survive up
to the new size, bytes past the old allocation are unspecified (modelled
as zero; every caller overwrites them before they are read). -/
def reallocBytes (old : List Nat) (newSize : Nat) : List Nat :=
  old.take newSize ++ List.replicate (newSize - old.length) 0

/-- `memcpy(dst + off, src, src.length)`: overwrite `src.length` bytes of
`dst` starting at offset `off`. -/
def listCopy (dst : List Nat) (off : Nat) (src : List Nat) : List Nat :=
  dst.take off ++ src ++ dst.drop (off + src.length)

/-- `memcmp(a, b, n)`: scan the first `n` bytes; at the first differing
byte return the (sign-faithful) difference of the unsigned byte values,
otherwise `0`.  Callers never pass `n` beyond either buffer. -/
def memcmp : List Nat → List Nat → Nat → Int
  | _, _, 0 => 0
  | [], _, _ + 1 => 0
  | _, [], _ + 1 => 0
  | x :: xs, y :: ys, n + 1 =>
      if x ≠ y then (x : Int) - (y : Int) else memcmp xs ys n

/-- `adjustMyStringLength`: realloc the buffer to exactly `newSize` bytes
and update `_length` to match (the reallocation is modelled as always
succeeding; every claim speaks about successful operations). -/
def adjustMyStringLength (s : MyString) (newSize : Nat) : MyString :=
  ⟨reallocBytes s.chars newSize, newSize⟩

/-- `getCStringLength`: scan memory from the start until the first NUL
byte.  The list is the readable memory; if it holds no NUL the C loop
would read past it (undefined), modelled by stopping at the end. -/
def getCStringLength : List Nat → Nat
  | [] => 0
  | c :: rest => if c = END_OF_C_STRING then 0 else getCStringLength rest + 1

/-- `emptyStringAlloc`: a fresh one-byte buffer holding `'\0'` with
`_length = 0` (this is also the state `myStringAlloc` returns). -/
def emptyStringAllocVal : MyString := ⟨[0], EMPTY_STRING_LENGTH⟩

/-- `myStringAlloc()`: returns a fresh empty instance. -/
def myStringAllocVal : MyString := emptyStringAllocVal

/-- `myStringLen` (only reached after each caller's own null check). -/
def myStringLen (s : MyString) : Nat := s.len

/-- `myStringSetFromCString(str, cString)`: compute the scan length,
reject when the byte at that index is not the NUL terminator, special
case the empty string (a fresh `emptyStringAlloc` buffer), then realloc
and `memcpy` the scanned bytes. -/
def myStringSetFromCString (str : Option MyString) (cString : Option (List Nat)) :
    Int × Option MyString :=
  match str, cString with
  | some s, some mem =>
    let cStringLength := getCStringLength mem
    if mem.getD cStringLength 0 ≠ END_OF_C_STRING then (MYSTRING_ERROR, some s)
    else
      let s := if cStringLength = 0 then emptyStringAllocVal else s
      let s := adjustMyStringLength s cStringLength
      (MYSTRING_SUCCESS, some ⟨listCopy s.chars 0 (mem.take cStringLength), s.len⟩)
  | _, _ => (MYSTRING_ERROR, str)

/-- `myStringToCString(str)`: a fresh `length + 1` buffer holding the
`length` content bytes followed by the NUL terminator (NULL in, NULL out). -/
def myStringToCString (str : Option MyString) : Option (List Nat) :=
  str.map fun s => s.chars.take s.len ++ [END_OF_C_STRING]

/-- `myStringCompare(str1, str2)`: `MYSTR_ERROR_CODE` when either side is
NULL; otherwise compare with `memcmp` over the shorter length and break
ties by length, returning the raw `memcmp` value when the lengths agree. -/
def myStringCompare (str1 str2 : Option MyString) : Int :=
  match str1, str2 with
  | some s1, some s2 =>
    let strLength1 := myStringLen s1
    let strLength2 := myStringLen s2
    if strLength2 < strLength1 then
      if EQUAL_STRINGS ≤ memcmp s1.chars s2.chars strLength2 then STR1_BIGGER else STR2_BIGGER
    else if strLength1 < strLength2 then
      if memcmp s1.chars s2.chars strLength1 ≤ EQUAL_STRINGS then STR2_BIGGER else STR1_BIGGER
    else
      memcmp s1.chars s2.chars strLength1
  | _, _ => MYSTR_ERROR_CODE

/-- `myStringEqual(str1, str2)`: `TRUE` exactly when the default compare
says the strings are equal. -/
def myStringEqual (str1 str2 : Option MyString) : Int :=
  match str1, str2 with
  | some s1, some s2 =>
      if myStringCompare (some s1) (some s2) = EQUAL_STRINGS then TRUE else FALSE
  | _, _ => MYSTR_ERROR_CODE

/-- `myStringCat(dest, src)`: no-op on an empty source, otherwise realloc
`dest` to the summed length and `memcpy` the source bytes after the
destination bytes, the offset being the pre-realloc destination length. -/
def myStringCat (dest src : Option MyString) : Int × Option MyString :=
  match dest, src with
  | some d, some s =>
    if s.len = EMPTY_STRING_LENGTH then (MYSTRING_SUCCESS, some d)
    else
      let srcLength := myStringLen s
      let destLength := myStringLen d
      let d := adjustMyStringLength d (srcLength + destLength)
      (MYSTRING_SUCCESS, some ⟨listCopy d.chars destLength (s.chars.take srcLength), d.len⟩)
  | _, _ => (MYSTRING_ERROR, dest)

/-- The loop of `myStringCustomCompare`: while `i` is below both lengths,
apply the comparator to the whole pair (the source applies it to
`(str1, str2)` at every index, not to the indexed bytes) and return on a
nonzero verdict; `k` is the number of iterations left. -/
def customCompareLoop (comparator : MyString → MyString → Int) (s1 s2 : MyString) :
    Nat → Option Int
  | 0 => none
  | k + 1 =>
    if EQUAL_STRINGS < comparator s1 s2 then some STR1_BIGGER
    else if comparator s1 s2 < EQUAL_STRINGS then some STR2_BIGGER
    else customCompareLoop comparator s1 s2 k

/-- `myStringCustomCompare(str1, str2, comparator)`: run the comparator
loop over the overlapping length, then break ties by length. -/
def myStringCustomCompare (str1 str2 : Option MyString)
    (comparator : Option (MyString → MyString → Int)) : Int :=
  match str1, str2, comparator with
  | some s1, some s2, some cmp =>
    let strLength1 := myStringLen s1
    let strLength2 := myStringLen s2
    match customCompareLoop cmp s1 s2 (min strLength1 strLength2) with
    | some r => r
    | none =>
      if strLength2 < strLength1 then STR1_BIGGER
      else if strLength1 < strLength2 then STR2_BIGGER
      else EQUAL_STRINGS
  | _, _, _ => MYSTR_ERROR_CODE

/-- `getFilteredStringLength(str, filt)`: scan the buffer as a C string
(`getCStringLength`) and count the bytes in that range passing the
filter. -/
def getFilteredStringLength (str : List Nat) (filt : Nat → Bool) : Nat :=
  ((str.take (getCStringLength str)).filter filt).length

/-- `createFilteredString(filteredString, unfilteredString, filt)`: write
the passing bytes of the scanned range, in order, at the start of the
destination buffer. -/
def createFilteredString (filteredString unfilteredString : List Nat)
    (filt : Nat → Bool) : List Nat :=
  let kept := (unfilteredString.take (getCStringLength unfilteredString)).filter filt
  listCopy filteredString 0 kept

/-- `myStringFilter(str, filt)`: no-op on an empty instance; otherwise
size a fresh temporary to the filtered length, fill it with the passing
bytes and adopt its buffer and length. -/
def myStringFilter (str : Option MyString) (filt : Option (Nat → Bool)) :
    Int × Option MyString :=
  match str, filt with
  | some s, some f =>
    if s.len = EMPTY_STRING_LENGTH then (MYSTRING_SUCCESS, some s)
    else
      let filteredStringLength := getFilteredStringLength s.chars f
      let filteredString := adjustMyStringLength emptyStringAllocVal filteredStringLength
      (MYSTRING_SUCCESS,
        some ⟨createFilteredString filteredString.chars s.chars f, filteredString.len⟩)
  | _, _ => (MYSTRING_ERROR, str)

/-- The digit loop of `getNumOfDigits`: divide by `DIGIT_DIVIDER` (C `/`
on `int` truncates toward zero, i.e. `Int.tdiv`) until zero, counting
the steps.  `fuel` only bounds the recursion so that the definition
stays structural; since `|n.tdiv 10| = |n| / 10`, any `fuel ≥ |n|`
reproduces the C loop exactly. -/
def numOfDigitsLoop (fuel : Nat) (n : Int) : Nat :=
  match fuel with
  | 0 => 0
  | f + 1 => if n = 0 then 0 else numOfDigitsLoop f (n.tdiv 10) + 1

/-- `getNumOfDigits(n)`: one extra slot when `n ≤ 0` (sign slot, also
reserved for exactly `0`), plus the digit count of the loop. -/
def getNumOfDigits (n : Int) : Nat :=
  let base := if n ≤ 0 then 1 else 0
  if n = 0 then base else base + numOfDigitsLoop n.natAbs n

/-- Decimal digits of `n`, least significant first, as ASCII bytes; the
`fuel` argument only bounds the recursion (any `fuel ≥ n` is exact). -/
def natDigitsRev (fuel : Nat) (n : Nat) : List Nat :=
  match fuel with
  | 0 => []
  | f + 1 => if n = 0 then [] else (48 + n % 10) :: natDigitsRev f (n / 10)

/-- ASCII decimal rendering of a natural number, most significant first. -/
def natDecimal (n : Nat) : List Nat :=
  if n = 0 then [48] else (natDigitsRev n n).reverse

/-- `sprintf(buf, "%d", n)` byte output (before the NUL terminator): a
leading `'-'` for negative values, then the decimal digits. -/
def sprintfD (n : Int) : List Nat :=
  if n < 0 then 45 :: natDecimal n.natAbs else natDecimal n.natAbs

/-- `myStringSetFromInt(str, n)`: realloc to `getNumOfDigits n` bytes and
`sprintf` the decimal text into the buffer.  `sprintf` also writes the
NUL terminator, one byte past the exact-fit allocation; the model keeps
the byte sequence `sprintf` lays down. -/
def myStringSetFromInt (str : Option MyString) (n : Int) : Int × Option MyString :=
  match str with
  | some s =>
    let numOfDigits := getNumOfDigits n
    let s := adjustMyStringLength s numOfDigits
    (MYSTRING_SUCCESS, some ⟨listCopy s.chars 0 (sprintfD n ++ [END_OF_C_STRING]), s.len⟩)
  | none => (MYSTRING_ERROR, none)

/-- The digit prefix `%d` consumes. -/
def takeDigits (l : List Nat) : List Nat :=
  l.takeWhile fun d => decide (48 ≤ d ∧ d ≤ 57)

/-- Value of a digit string, most significant first. -/
def digitsVal (l : List Nat) : Nat :=
  l.foldl (fun acc d => 10 * acc + (d - 48)) 0

/-- `sscanf(buf, "%d", &value)`: skip C whitespace, read an optional
sign (`'-'` is 45, `'+'` is 43), then a nonempty digit run; `none` models
the matching failure (`sscanf` result `≤ 0`). -/
def sscanfD (l : List Nat) : Option Int :=
  let l1 := l.dropWhile fun c => decide (c = 32 ∨ (9 ≤ c ∧ c ≤ 13))
  let rest := if l1.headD 0 = 45 ∨ l1.headD 0 = 43 then l1.tail else l1
  let ds := takeDigits rest
  if ds.isEmpty then none
  else if l1.headD 0 = 45 then some (-(digitsVal ds : Int))
  else some (digitsVal ds : Int)

/-- `myStringToInt(str)`: `MYSTRING_ERROR` on a NULL argument (the status
constant, not `MYSTR_ERROR_CODE`), `MYSTR_ERROR_CODE` when `sscanf`
parses no integer, otherwise the parsed value. -/
def myStringToInt (str : Option MyString) : Int :=
  match str with
  | none => MYSTRING_ERROR
  | some s =>
    match sscanfD s.chars with
    | none => MYSTR_ERROR_CODE
    | some value => value

/-- A caller-provided output stream: the bytes written so far and whether
it is still open. -/
structure CStream where
  contents : List Nat
  isOpen : Bool
deriving DecidableEq

/-- `myStringWrite(str, stream)`: export to a C string, `fprintf` its
bytes up to the NUL terminator to the stream, free the temporary and
`fclose` the caller's stream before returning success. -/
def myStringWrite (str : Option MyString) (stream : Option CStream) :
    Int × Option CStream :=
  match str, stream with
  | some s, some st =>
    let cStr := s.chars.take s.len ++ [END_OF_C_STRING]
    let written := cStr.takeWhile fun c => decide (c ≠ 0)
    (MYSTRING_SUCCESS, some ⟨st.contents ++ written, false⟩)
  | _, _ => (MYSTRING_ERROR, stream)

/-! ### A buffer heap for the clone claim

`myStringClone` deep-copies: it allocates a fresh instance and copies the
source bytes into the fresh instance's own buffer.  To state storage
independence the buffers live in an explicit heap, addressed by
allocation order; a `MSRef` is the struct value (buffer address plus
`_length`). -/

/-- The heap of string buffers, addressed by allocation order. -/
structure BufHeap where
  bufs : List (List Nat)
deriving DecidableEq

/-- `malloc` of a buffer with the given initial contents. -/
def allocBuf (h : BufHeap) (content : List Nat) : BufHeap × Nat :=
  (⟨h.bufs ++ [content]⟩, h.bufs.length)

/-- Read the buffer at an address. -/
def readBuf (h : BufHeap) (i : Nat) : List Nat :=
  h.bufs.getD i []

/-- Overwrite the buffer at an address. -/
def writeBuf (h : BufHeap) (i : Nat) (content : List Nat) : BufHeap :=
  ⟨h.bufs.set i content⟩

/-- A `MyString` struct over the heap: buffer address and `_length`. -/
structure MSRef where
  buf : Nat
  len : Nat
deriving DecidableEq

/-- `myStringAlloc()` over the heap: a fresh one-byte `'\0'` buffer and
length `0`. -/
def myStringAllocH (h : BufHeap) : BufHeap × MSRef :=
  let (h', id) := allocBuf h [0]
  (h', ⟨id, EMPTY_STRING_LENGTH⟩)

/-- `adjustMyStringLength` over the heap: realloc the instance's own
buffer in place and update its length. -/
def adjustMyStringLengthH (h : BufHeap) (r : MSRef) (newSize : Nat) : BufHeap × MSRef :=
  (writeBuf h r.buf (reallocBytes (readBuf h r.buf) newSize), ⟨r.buf, newSize⟩)

/-- `myStringSetFromMyString(str, other)` over the heap: an empty source
makes a fresh `emptyStringAlloc` buffer; otherwise realloc the receiver's
buffer to the source length and `memcpy` the source bytes into it. -/
def myStringSetFromMyStringH (h : BufHeap) (dst other : MSRef) : BufHeap × MSRef :=
  if other.len = EMPTY_STRING_LENGTH then
    let (h', id) := allocBuf h [0]
    (h', ⟨id, EMPTY_STRING_LENGTH⟩)
  else
    let otherStringLength := other.len
    let (h', dst') := adjustMyStringLengthH h dst otherStringLength
    (writeBuf h' dst'.buf
        (listCopy (readBuf h' dst'.buf) 0 ((readBuf h' other.buf).take otherStringLength)),
      dst')

/-- `myStringClone(str)` over the heap: allocate a fresh instance and
set it from the source. -/
def myStringCloneH (h : BufHeap) (str : Option MSRef) : BufHeap × Option MSRef :=
  match str with
  | none => (h, none)
  | some s =>
    let (h', fresh) := myStringAllocH h
    let (h'', cloned) := myStringSetFromMyStringH h' fresh s
    (h'', some cloned)

/-- View a heap instance as a plain `MyString` value. -/
def toPure (h : BufHeap) (r : MSRef) : MyString :=
  ⟨readBuf h r.buf, r.len⟩

/-- `myStringEqual` applied to two heap instances. -/
def myStringEqualH (h : BufHeap) (r1 r2 : MSRef) : Int :=
  myStringEqual (some (toPure h r1)) (some (toPure h r2))

/-- The instance `myStringClone` returns (total extractor; the model's
clone of a non-NULL instance always succeeds). -/
def theClone (h : BufHeap) (a : MSRef) : MSRef :=
  ((myStringCloneH h (some a)).2).getD ⟨0, 0⟩

/-! ### Lemmas about `memcmp` -/

theorem memcmp_len_zero (a b : List Nat) : memcmp a b 0 = 0 := by
  cases a <;> cases b <;> rfl

theorem memcmp_eq_zero (a b : List Nat) (n : Nat) (ha : n ≤ a.length) (hb : n ≤ b.length)
    (h : ∀ j, j < n → a.getD j 0 = b.getD j 0) : memcmp a b n = 0 := by
  induction n generalizing a b with
  | zero => exact memcmp_len_zero a b
  | succ m ih =>
    match a, b with
    | [], _ => simp at ha
    | _ :: _, [] => simp at hb
    | x :: xs, y :: ys =>
      have hxy : x = y := by simpa using h 0 (Nat.succ_pos m)
      have htail : ∀ j, j < m → xs.getD j 0 = ys.getD j 0 := fun j hj => by
        simpa using h (j + 1) (Nat.succ_lt_succ hj)
      simp only [memcmp, hxy, ne_eq, not_true_eq_false, if_neg, ite_false]
      exact ih xs ys (Nat.le_of_succ_le_succ ha) (Nat.le_of_succ_le_succ hb) htail

theorem memcmp_eq_of_first_diff (a b : List Nat) (n i : Nat) (hin : i < n)
    (ha : n ≤ a.length) (hb : n ≤ b.length)
    (hpre : ∀ j, j < i → a.getD j 0 = b.getD j 0)
    (hne : a.getD i 0 ≠ b.getD i 0) :
    memcmp a b n = (a.getD i 0 : Int) - (b.getD i 0 : Int) := by
  induction i generalizing a b n with
  | zero =>
    match n, a, b with
    | m + 1, [], _ => simp at ha
    | m + 1, _ :: _, [] => simp at hb
    | m + 1, x :: xs, y :: ys =>
      have hxy : x ≠ y := by simpa using hne
      simp [memcmp, hxy]
  | succ k ih =>
    match n, a, b with
    | m + 1, [], _ => simp at ha
    | m + 1, _ :: _, [] => simp at hb
    | m + 1, x :: xs, y :: ys =>
      have hxy : x = y := by simpa using hpre 0 (Nat.succ_pos k)
      have htail : ∀ j, j < k → xs.getD j 0 = ys.getD j 0 := fun j hj => by
        simpa using hpre (j + 1) (Nat.succ_lt_succ hj)
      have hne' : xs.getD k 0 ≠ ys.getD k 0 := by simpa using hne
      simp only [memcmp, hxy, ne_eq, not_true_eq_false, if_neg, ite_false,
        List.getD_cons_succ]
      exact ih xs ys m (Nat.lt_of_succ_lt_succ hin) (Nat.le_of_succ_le_succ ha)
        (Nat.le_of_succ_le_succ hb) htail hne'

/-- Claim C1: for non-null `a` and `b`, `myStringCompare` realizes
byte-lexicographic order with length as final tiebreak: at the first
differing byte of the overlapping prefix the sign of the byte-wise
difference is the sign of the result; when the overlapping prefixes agree
the longer string is bigger (positive when `a` is longer, negative when
`b` is longer, `0` on full equality); a NULL argument yields
`MYSTR_ERROR_CODE`. -/
theorem myStringCompare_spec (s1 s2 : MyString) (h1 : s1.Wf) (h2 : s2.Wf) :
    (myStringCompare none (some s2) = MYSTR_ERROR_CODE) ∧
    (myStringCompare (some s1) none = MYSTR_ERROR_CODE) ∧
    (myStringCompare none none = MYSTR_ERROR_CODE) ∧
    (∀ i, i < min s1.len s2.len →
        (∀ j, j < i → s1.chars.getD j 0 = s2.chars.getD j 0) →
        s1.chars.getD i 0 ≠ s2.chars.getD i 0 →
        (myStringCompare (some s1) (some s2)).sign
          = ((s1.chars.getD i 0 : Int) - (s2.chars.getD i 0 : Int)).sign) ∧
    ((∀ j, j < min s1.len s2.len → s1.chars.getD j 0 = s2.chars.getD j 0) →
        ((s2.len < s1.len → 0 < myStringCompare (some s1) (some s2)) ∧
         (s1.len < s2.len → myStringCompare (some s1) (some s2) < 0) ∧
         (s1.len = s2.len → myStringCompare (some s1) (some s2) = 0))) := by
  refine ⟨rfl, rfl, rfl, ?_, ?_⟩
  · intro i hi hpre hne
    have hd : ((s1.chars.getD i 0 : Int) - (s2.chars.getD i 0 : Int)) ≠ 0 := by
      intro h0
      exact hne (by exact_mod_cast sub_eq_zero.mp h0)
    rcases Nat.lt_trichotomy s2.len s1.len with hlt | heq | hgt
    · have hm : memcmp s1.chars s2.chars s2.len
          = (s1.chars.getD i 0 : Int) - (s2.chars.getD i 0 : Int) :=
        memcmp_eq_of_first_diff _ _ _ i (by omega)
          (le_trans (le_of_lt hlt) h1) h2 hpre hne
      simp only [myStringCompare, myStringLen, if_pos hlt, hm]
      rcases lt_or_gt_of_ne hd with hneg | hpos
      · rw [if_neg (by unfold EQUAL_STRINGS; omega), Int.sign_eq_neg_one_of_neg hneg]; rfl
      · rw [if_pos (by unfold EQUAL_STRINGS; omega), Int.sign_eq_one_of_pos hpos]; rfl
    · have hm : memcmp s1.chars s2.chars s1.len
          = (s1.chars.getD i 0 : Int) - (s2.chars.getD i 0 : Int) :=
        memcmp_eq_of_first_diff _ _ _ i (by omega) h1 (heq ▸ h2) hpre hne
      have e : myStringCompare (some s1) (some s2) = memcmp s1.chars s2.chars s1.len := by
        simp only [myStringCompare, myStringLen]
        rw [if_neg (by omega : ¬ s2.len < s1.len), if_neg (by omega : ¬ s1.len < s2.len)]
      rw [e, hm]
    · have hm : memcmp s1.chars s2.chars s1.len
          = (s1.chars.getD i 0 : Int) - (s2.chars.getD i 0 : Int) :=
        memcmp_eq_of_first_diff _ _ _ i (by omega) h1
          (le_trans (le_of_lt hgt) h2) hpre hne
      simp only [myStringCompare, myStringLen, if_neg (by omega : ¬ s2.len < s1.len),
        if_pos hgt, hm]
      rcases lt_or_gt_of_ne hd with hneg | hpos
      · rw [if_pos (by unfold EQUAL_STRINGS; omega), Int.sign_eq_neg_one_of_neg hneg]; rfl
      · rw [if_neg (by unfold EQUAL_STRINGS; omega), Int.sign_eq_one_of_pos hpos]; rfl
  · intro hpre
    refine ⟨?_, ?_, ?_⟩
    · intro hlt
      have hm : memcmp s1.chars s2.chars s2.len = 0 :=
        memcmp_eq_zero _ _ _ (le_trans (le_of_lt hlt) h1) h2
          fun j hj => hpre j (by omega)
      simp only [myStringCompare, myStringLen, if_pos hlt, hm]
      decide
    · intro hlt
      have hm : memcmp s1.chars s2.chars s1.len = 0 :=
        memcmp_eq_zero _ _ _ h1 (le_trans (le_of_lt hlt) h2)
          fun j hj => hpre j (by omega)
      simp only [myStringCompare, myStringLen, if_neg (by omega : ¬ s2.len < s1.len),
        if_pos hlt, hm]
      decide
    · intro heq
      have hm : memcmp s1.chars s2.chars s1.len = 0 :=
        memcmp_eq_zero _ _ _ h1 (heq ▸ h2) fun j hj => hpre j (by omega)
      have e : myStringCompare (some s1) (some s2) = memcmp s1.chars s2.chars s1.len := by
        simp only [myStringCompare, myStringLen]
        rw [if_neg (by omega : ¬ s2.len < s1.len), if_neg (by omega : ¬ s1.len < s2.len)]
      rw [e, hm]

/-- Witness for C1 at the test inputs of `myStringCompareNormalCheck`:
`"Some"`-style prefix data, here `[97, 98]` vs `[97]`, where the longer
string wins the tiebreak. -/
theorem myStringCompare_spec_witness :
    0 < myStringCompare (some ⟨[97, 98], 2⟩) (some ⟨[97], 1⟩) :=
  ((myStringCompare_spec ⟨[97, 98], 2⟩ ⟨[97], 1⟩ (by decide) (by decide)).2.2.2.2
    (by decide)).1 (by decide)

/-! ### Lemmas about the C-string scan and the buffer primitives -/

theorem getCStringLength_append_zero (s rest : List Nat) (h : 0 ∉ s) :
    getCStringLength (s ++ 0 :: rest) = s.length := by
  induction s with
  | nil => simp [getCStringLength, END_OF_C_STRING]
  | cons c cs ih =>
    have hc : c ≠ 0 := fun e => h (e ▸ List.mem_cons_self c cs)
    simp only [List.cons_append, getCStringLength, END_OF_C_STRING, if_neg hc,
      List.length_cons, List.append_eq]
    rw [ih fun hm => h (List.mem_cons_of_mem c hm)]

theorem getCStringLength_getD (mem : List Nat) (h : 0 ∈ mem) :
    mem.getD (getCStringLength mem) 0 = 0 := by
  induction mem with
  | nil => cases h
  | cons c rest ih =>
    by_cases hc : c = 0
    · simp [getCStringLength, END_OF_C_STRING, hc]
    · have hr : 0 ∈ rest := by
        rcases List.mem_cons.mp h with h0 | h0
        · exact absurd h0.symm hc
        · exact h0
      simp only [getCStringLength, END_OF_C_STRING, if_neg hc, List.getD_cons_succ]
      exact ih hr

theorem reallocBytes_length (old : List Nat) (n : Nat) :
    (reallocBytes old n).length = n := by
  simp only [reallocBytes, List.length_append, List.length_take, List.length_replicate]
  omega

theorem listCopy_realloc_exact (old src : List Nat) (n : Nat) (h : src.length = n) :
    listCopy (reallocBytes old n) 0 src = src := by
  unfold listCopy
  rw [List.take_zero, List.nil_append, Nat.zero_add,
    List.drop_eq_nil_of_le (by rw [reallocBytes_length, h]), List.append_nil]

/-- Claim C2: setting a freshly allocated instance from a NUL-terminated
byte sequence `s` (no interior NUL) and exporting it again reproduces
`s` followed by its NUL terminator. -/
theorem setFromCString_toCString_roundtrip (s : List Nat) (h : 0 ∉ s) :
    myStringToCString
        (myStringSetFromCString (some myStringAllocVal) (some (s ++ [0]))).2
      = some (s ++ [0]) := by
  have hlen : getCStringLength (s ++ [0]) = s.length := getCStringLength_append_zero s [] h
  have hgetD : (s ++ [0]).getD (getCStringLength (s ++ [0])) 0 = 0 :=
    getCStringLength_getD _ (by simp)
  have htake : (s ++ [0]).take (getCStringLength (s ++ [0])) = s := by
    rw [hlen]; exact List.take_left ..
  simp only [myStringSetFromCString, END_OF_C_STRING, hgetD, ne_eq, not_true_eq_false,
    if_neg, ite_false, myStringAllocVal, ite_self, adjustMyStringLength, htake]
  rw [listCopy_realloc_exact _ _ _ (hlen ▸ rfl)]
  simp [myStringToCString, END_OF_C_STRING]
  omega

/-- Witness for C2 at the bytes of `"abcde"` (test
`myStringSetFromCStringNormal`). -/
theorem setFromCString_toCString_roundtrip_witness :
    myStringToCString
        (myStringSetFromCString (some myStringAllocVal)
          (some ([97, 98, 99, 100, 101] ++ [0]))).2
      = some ([97, 98, 99, 100, 101] ++ [0]) :=
  setFromCString_toCString_roundtrip [97, 98, 99, 100, 101] (by decide)

/-- Claim C10: for a non-null C-string input (memory that does contain a
NUL byte, which is what the scan of `getCStringLength` needs to stop),
the byte at the computed length is always the NUL terminator, so the
malformed-input rejection branch of `myStringSetFromCString` never fires:
the call succeeds, and only NULL arguments (or an allocation failure,
which the model factors out) can fail. -/
theorem setFromCString_terminator_check_passes (s : MyString) (mem : List Nat)
    (h : 0 ∈ mem) :
    mem.getD (getCStringLength mem) 0 = END_OF_C_STRING ∧
    (myStringSetFromCString (some s) (some mem)).1 = MYSTRING_SUCCESS ∧
    (myStringSetFromCString none (some mem)).1 = MYSTRING_ERROR ∧
    (myStringSetFromCString (some s) none).1 = MYSTRING_ERROR := by
  have hgetD := getCStringLength_getD mem h
  refine ⟨hgetD, ?_, rfl, rfl⟩
  simp only [myStringSetFromCString, END_OF_C_STRING, hgetD, ne_eq, not_true_eq_false,
    if_neg, ite_false]

/-- Witness for C10 at the memory `[104, 105, 0]` (the C string `"hi"`)
and a fresh instance. -/
theorem setFromCString_terminator_check_passes_witness :
    ([104, 105, 0] : List Nat).getD (getCStringLength [104, 105, 0]) 0 = END_OF_C_STRING ∧
    (myStringSetFromCString (some myStringAllocVal) (some [104, 105, 0])).1
      = MYSTRING_SUCCESS ∧
    (myStringSetFromCString none (some [104, 105, 0])).1 = MYSTRING_ERROR ∧
    (myStringSetFromCString (some myStringAllocVal) none).1 = MYSTRING_ERROR :=
  setFromCString_terminator_check_passes myStringAllocVal [104, 105, 0] (by decide)

/-- Claim C5: a successful `myStringCat` leaves `dest` holding its prior
bytes followed by the bytes of `src`, with length the sum of the two
prior lengths, and an empty source is a success no-op leaving `dest`
untouched. -/
theorem myStringCat_spec (d s : MyString) (hd : d.Wf) (hs : s.Wf) :
    (myStringCat (some d) (some s)).1 = MYSTRING_SUCCESS ∧
    ((myStringCat (some d) (some s)).2.map fun r => (r.chars.take r.len, r.len))
      = some (d.chars.take d.len ++ s.chars.take s.len, d.len + s.len) ∧
    (s.len = 0 → myStringCat (some d) (some s) = (MYSTRING_SUCCESS, some d)) := by
  by_cases h0 : s.len = 0
  · refine ⟨by simp [myStringCat, EMPTY_STRING_LENGTH, h0], ?_, fun _ => by
      simp [myStringCat, EMPTY_STRING_LENGTH, h0]⟩
    simp [myStringCat, EMPTY_STRING_LENGTH, h0]
  · have hdw : d.len ≤ d.chars.length := hd
    have hsw : s.len ≤ s.chars.length := hs
    have hslen : (s.chars.take s.len).length = s.len := by
      rw [List.length_take]; omega
    have hR : (reallocBytes d.chars (s.len + d.len)).length = s.len + d.len :=
      reallocBytes_length ..
    have htake : (reallocBytes d.chars (s.len + d.len)).take d.len
        = d.chars.take d.len := by
      unfold reallocBytes
      rw [List.take_append_of_le_length (by rw [List.length_take]; omega),
        List.take_take, min_eq_left (by omega)]
    have hbuf : listCopy (reallocBytes d.chars (s.len + d.len)) d.len
        (s.chars.take s.len) = d.chars.take d.len ++ s.chars.take s.len := by
      unfold listCopy
      rw [htake, hslen, List.drop_eq_nil_of_le (by omega), List.append_nil]
    have hres : myStringCat (some d) (some s)
        = (MYSTRING_SUCCESS,
            some ⟨d.chars.take d.len ++ s.chars.take s.len, s.len + d.len⟩) := by
      simp only [myStringCat, EMPTY_STRING_LENGTH, if_neg h0, myStringLen,
        adjustMyStringLength, hbuf]
    refine ⟨by rw [hres], ?_, fun e => absurd e h0⟩
    rw [hres]
    have houter : (d.chars.take d.len ++ s.chars.take s.len).take (s.len + d.len)
        = d.chars.take d.len ++ s.chars.take s.len :=
      List.take_of_length_le
        (by rw [List.length_append, hslen, List.length_take]; omega)
    simp [houter, Nat.add_comm]
    omega

/-- Witness for C5 at `dest = "Hey"`-style bytes `[72, 101]` and
`src = [121]`, plus the empty-source no-op at a fresh instance. -/
theorem myStringCat_spec_witness :
    (myStringCat (some ⟨[72, 101], 2⟩) (some ⟨[121], 1⟩)).1 = MYSTRING_SUCCESS ∧
    ((myStringCat (some ⟨[72, 101], 2⟩) (some ⟨[121], 1⟩)).2.map
        fun r => (r.chars.take r.len, r.len))
      = some (([72, 101] : List Nat).take 2 ++ ([121] : List Nat).take 1, 2 + 1) ∧
    ((1 : Nat) = 0 → myStringCat (some ⟨[72, 101], 2⟩) (some ⟨[121], 1⟩)
        = (MYSTRING_SUCCESS, some ⟨[72, 101], 2⟩)) :=
  myStringCat_spec ⟨[72, 101], 2⟩ ⟨[121], 1⟩ (by decide) (by decide)

/-! ### The custom-compare loop -/

theorem customCompareLoop_pos (cmp : MyString → MyString → Int) (s1 s2 : MyString)
    (h : 0 < cmp s1 s2) (k : Nat) (hk : k ≠ 0) :
    customCompareLoop cmp s1 s2 k = some STR1_BIGGER := by
  cases k with
  | zero => exact absurd rfl hk
  | succ m => simp [customCompareLoop, EQUAL_STRINGS, h]

theorem customCompareLoop_neg (cmp : MyString → MyString → Int) (s1 s2 : MyString)
    (h : cmp s1 s2 < 0) (k : Nat) (hk : k ≠ 0) :
    customCompareLoop cmp s1 s2 k = some STR2_BIGGER := by
  cases k with
  | zero => exact absurd rfl hk
  | succ m =>
    simp [customCompareLoop, EQUAL_STRINGS, h, lt_asymm h]

theorem customCompareLoop_zero (cmp : MyString → MyString → Int) (s1 s2 : MyString)
    (h : cmp s1 s2 = 0) (k : Nat) :
    customCompareLoop cmp s1 s2 k = none := by
  induction k with
  | zero => rfl
  | succ m ih => simp [customCompareLoop, EQUAL_STRINGS, h, ih]

/-- Claim C4: `myStringCustomCompare` applies the comparator to the whole
pair at each index (never to the indexed bytes), so for non-empty strings
the result is `1` when the first application is positive, `-1` when
negative, and otherwise the length tiebreak; when either string is empty
the comparator is never consulted (the result is the tiebreak for every
comparator); NULL arguments yield `MYSTR_ERROR_CODE`. -/
theorem myStringCustomCompare_spec (s1 s2 : MyString)
    (cmp : MyString → MyString → Int) :
    (0 < s1.len → 0 < s2.len →
      myStringCustomCompare (some s1) (some s2) (some cmp)
        = (if 0 < cmp s1 s2 then STR1_BIGGER
           else if cmp s1 s2 < 0 then STR2_BIGGER
           else if s2.len < s1.len then STR1_BIGGER
           else if s1.len < s2.len then STR2_BIGGER
           else EQUAL_STRINGS)) ∧
    (s1.len = 0 ∨ s2.len = 0 →
      myStringCustomCompare (some s1) (some s2) (some cmp)
        = (if s2.len < s1.len then STR1_BIGGER
           else if s1.len < s2.len then STR2_BIGGER
           else EQUAL_STRINGS)) ∧
    (myStringCustomCompare none (some s2) (some cmp) = MYSTR_ERROR_CODE) ∧
    (myStringCustomCompare (some s1) (some s2) none = MYSTR_ERROR_CODE) := by
  refine ⟨?_, ?_, rfl, rfl⟩
  · intro hp1 hp2
    have hmin : min s1.len s2.len ≠ 0 := by omega
    rcases lt_trichotomy (cmp s1 s2) 0 with hneg | hzero | hpos
    · rw [if_neg (by omega), if_pos hneg]
      simp only [myStringCustomCompare, myStringLen,
        customCompareLoop_neg cmp s1 s2 hneg _ hmin]
    · rw [if_neg (by omega), if_neg (by omega)]
      simp only [myStringCustomCompare, myStringLen,
        customCompareLoop_zero cmp s1 s2 hzero]
    · rw [if_pos hpos]
      simp only [myStringCustomCompare, myStringLen,
        customCompareLoop_pos cmp s1 s2 hpos _ hmin]
  · intro h0
    have hmin : min s1.len s2.len = 0 := by omega
    simp only [myStringCustomCompare, myStringLen, hmin, customCompareLoop]

/-- Witness for C4 at the inputs of `myStringCustomCompareNormal`:
`"abc"`-style byte lists with a comparator that always answers `5`
(positive), so the result is `STR1_BIGGER`. -/
theorem myStringCustomCompare_spec_witness :
    myStringCustomCompare (some ⟨[97, 98, 99], 3⟩) (some ⟨[97, 98, 99, 100], 4⟩)
      (some fun _ _ => (5 : Int)) = 1 := by
  have h := (myStringCustomCompare_spec ⟨[97, 98, 99], 3⟩ ⟨[97, 98, 99, 100], 4⟩
    (fun _ _ => (5 : Int))).1 (by decide) (by decide)
  simpa using h

/-! ### Filter -/

theorem getCStringLength_of_no_zero (l : List Nat) (h : 0 ∉ l) :
    getCStringLength l = l.length := by
  induction l with
  | nil => rfl
  | cons c cs ih =>
    have hc : c ≠ 0 := fun e => h (e ▸ List.mem_cons_self c cs)
    simp only [getCStringLength, END_OF_C_STRING, if_neg hc, List.length_cons]
    rw [ih fun hm => h (List.mem_cons_of_mem c hm)]

/-- The filter predicate of the unit test `myStringFilterNormal`: keep
lowercase letters strictly between `'a'` (97) and `'g'` (103). -/
def filt (c : Nat) : Bool := decide (97 < c ∧ c < 103)

/-- The always-true predicate (used to exhibit the NUL-byte behaviour of
`myStringFilter`). -/
def keepAll (_ : Nat) : Bool := true

/-- Counterexample to claim C6 as stated: on the instance with bytes
`[98, 0, 99]` the call succeeds but keeps only `[98]` instead of the full
subsequence `[98, 0, 99]` selected by the always-true predicate, because
`myStringFilter` rescans its (unterminated) buffer for a NUL byte and
stops at the interior `0`. -/
theorem myStringFilter_claim_counterexample :
    (myStringFilter (some ⟨[98, 0, 99], 3⟩) (some keepAll)).1 = MYSTRING_SUCCESS ∧
    (myStringFilter (some ⟨[98, 0, 99], 3⟩) (some keepAll)).2 = some ⟨[98], 1⟩ ∧
    ¬ ((myStringFilter (some ⟨[98, 0, 99], 3⟩) (some keepAll)).2
        = some ⟨([98, 0, 99] : List Nat).filter keepAll,
            (([98, 0, 99] : List Nat).filter keepAll).length⟩) := by decide

/-- Claim C6, amended: for a non-null instance whose buffer is exact-fit
(`_length` equals the buffer size, as every setter leaves it) and free of
NUL bytes, and a non-null predicate, the successful `myStringFilter`
leaves exactly the subsequence of characters satisfying the predicate, in
order, with length the count of passing characters. -/
theorem myStringFilter_amended_spec (s : MyString) (f : Nat → Bool)
    (hexact : s.chars.length = s.len) (hnz : 0 ∉ s.chars) :
    (myStringFilter (some s) (some f)).1 = MYSTRING_SUCCESS ∧
    (myStringFilter (some s) (some f)).2
      = some ⟨s.chars.filter f, (s.chars.filter f).length⟩ := by
  by_cases h0 : s.len = 0
  · have hnil : s.chars = [] := List.eq_nil_of_length_eq_zero (by omega)
    obtain ⟨cs, n⟩ := s
    simp only at hnil h0
    subst hnil h0
    exact ⟨rfl, rfl⟩
  · have hscan : getCStringLength s.chars = s.chars.length :=
      getCStringLength_of_no_zero s.chars hnz
    have htake : s.chars.take (getCStringLength s.chars) = s.chars := by
      rw [hscan, List.take_length]
    have hkept : createFilteredString
        (reallocBytes emptyStringAllocVal.chars (getFilteredStringLength s.chars f))
        s.chars f = s.chars.filter f := by
      unfold createFilteredString
      rw [htake]
      exact listCopy_realloc_exact _ _ _ (by rw [getFilteredStringLength, htake])
    refine ⟨by simp [myStringFilter, EMPTY_STRING_LENGTH, h0], ?_⟩
    simp only [myStringFilter, EMPTY_STRING_LENGTH, if_neg h0, adjustMyStringLength,
      hkept]
    rw [getFilteredStringLength, htake]

/-- Witness for C6 (amended) at the scenario of `myStringFilterNormal`:
filtering `"abcz"` (`[97, 98, 99, 122]`) with `filt` keeps `"bc"`
(`[98, 99]`). -/
theorem myStringFilter_amended_spec_witness :
    (myStringFilter (some ⟨[97, 98, 99, 122], 4⟩) (some filt)).1 = MYSTRING_SUCCESS ∧
    (myStringFilter (some ⟨[97, 98, 99, 122], 4⟩) (some filt)).2
      = some ⟨([97, 98, 99, 122] : List Nat).filter filt,
          (([97, 98, 99, 122] : List Nat).filter filt).length⟩ :=
  myStringFilter_amended_spec ⟨[97, 98, 99, 122], 4⟩ filt (by decide) (by decide)

/-! ### Integer conversion roundtrip -/

theorem listCopy_zero (dst src : List Nat) :
    listCopy dst 0 src = src ++ dst.drop src.length := by
  unfold listCopy
  rw [List.take_zero, List.nil_append, Nat.zero_add]

theorem natDigitsRev_foldr (fuel n : Nat) (h : n ≤ fuel) :
    List.foldr (fun d acc => 10 * acc + (d - 48)) 0 (natDigitsRev fuel n) = n := by
  induction fuel generalizing n with
  | zero =>
    have : n = 0 := by omega
    simp [natDigitsRev, this]
  | succ f ih =>
    by_cases h0 : n = 0
    · simp [natDigitsRev, h0]
    · have hdiv : n / 10 ≤ f := by
        have := Nat.div_lt_self (Nat.pos_of_ne_zero h0) (by norm_num : (1 : Nat) < 10)
        omega
      simp only [natDigitsRev, if_neg h0, List.foldr_cons, ih (n / 10) hdiv]
      omega

theorem natDigitsRev_mem (fuel n d : Nat) (hd : d ∈ natDigitsRev fuel n) :
    48 ≤ d ∧ d ≤ 57 := by
  induction fuel generalizing n with
  | zero => simp [natDigitsRev] at hd
  | succ f ih =>
    by_cases h0 : n = 0
    · simp [natDigitsRev, h0] at hd
    · simp only [natDigitsRev, if_neg h0, List.mem_cons] at hd
      rcases hd with he | hm
      · have : n % 10 < 10 := Nat.mod_lt _ (by norm_num)
        omega
      · exact ih (n / 10) hm

theorem digitsVal_natDecimal (n : Nat) : digitsVal (natDecimal n) = n := by
  by_cases h0 : n = 0
  · simp [natDecimal, digitsVal, h0]
  · unfold natDecimal digitsVal
    rw [if_neg h0, List.foldl_reverse]
    exact natDigitsRev_foldr n n le_rfl

theorem natDecimal_mem (n d : Nat) (hd : d ∈ natDecimal n) : 48 ≤ d ∧ d ≤ 57 := by
  by_cases h0 : n = 0
  · simp [natDecimal, h0] at hd
    omega
  · unfold natDecimal at hd
    rw [if_neg h0, List.mem_reverse] at hd
    exact natDigitsRev_mem n n d hd

theorem natDecimal_ne_nil (n : Nat) : natDecimal n ≠ [] := by
  unfold natDecimal
  by_cases h0 : n = 0
  · simp [h0]
  · rw [if_neg h0]
    cases n with
    | zero => exact absurd rfl h0
    | succ m => simp [natDigitsRev]

theorem takeWhile_append_stop (p : Nat → Bool) (xs ys : List Nat) (y : Nat)
    (hall : ∀ d ∈ xs, p d = true) (hstop : p y = false) :
    (xs ++ y :: ys).takeWhile p = xs := by
  induction xs with
  | nil => simp [List.takeWhile_cons, hstop]
  | cons x xs ih =>
    have hx : p x = true := hall x (List.mem_cons_self x xs)
    simp only [List.cons_append, List.takeWhile_cons, hx, ite_true]
    rw [ih fun d hd => hall d (List.mem_cons_of_mem x hd)]

theorem takeDigits_decimal (m : Nat) (junk : List Nat) :
    takeDigits (natDecimal m ++ 0 :: junk) = natDecimal m := by
  unfold takeDigits
  exact takeWhile_append_stop _ _ _ _
    (fun d hd => by
      have := natDecimal_mem m d hd
      simp only [decide_eq_true_eq]
      omega)
    (by simp)

/-- `sscanf "%d"` inverts `sprintf "%d"`, whatever bytes trail the NUL
terminator. -/
theorem sscanfD_sprintfD (n : Int) (junk : List Nat) :
    sscanfD (sprintfD n ++ 0 :: junk) = some n := by
  have hempty : ¬((natDecimal n.natAbs).isEmpty = true) := by
    cases h : natDecimal n.natAbs with
    | nil => exact absurd h (natDecimal_ne_nil n.natAbs)
    | cons d ds' => simp
  by_cases hneg : n < 0
  · have hlist : sprintfD n ++ 0 :: junk
        = 45 :: (natDecimal n.natAbs ++ 0 :: junk) := by
      simp [sprintfD, hneg]
    have hdrop : List.dropWhile (fun c => decide (c = 32 ∨ (9 ≤ c ∧ c ≤ 13)))
        (45 :: (natDecimal n.natAbs ++ 0 :: junk))
          = 45 :: (natDecimal n.natAbs ++ 0 :: junk) :=
      List.dropWhile_cons_of_neg (by decide)
    have hsign : ((45 : Nat) = 45 ∨ (45 : Nat) = 43) := Or.inl rfl
    rw [hlist]
    simp only [sscanfD]
    rw [hdrop]
    simp only [List.headD_cons, List.tail_cons]
    simp [takeDigits_decimal, hempty, digitsVal_natDecimal,
      Int.ofNat_natAbs_of_nonpos (le_of_lt hneg)]
  · obtain ⟨d, ds', he⟩ : ∃ d ds', natDecimal n.natAbs = d :: ds' := by
      cases h : natDecimal n.natAbs with
      | nil => exact absurd h (natDecimal_ne_nil n.natAbs)
      | cons d ds' => exact ⟨d, ds', rfl⟩
    have hd : 48 ≤ d ∧ d ≤ 57 := natDecimal_mem n.natAbs d (he ▸ List.mem_cons_self d ds')
    have hlist : sprintfD n ++ 0 :: junk = d :: (ds' ++ 0 :: junk) := by
      simp [sprintfD, hneg, he]
    have hdrop : List.dropWhile (fun c => decide (c = 32 ∨ (9 ≤ c ∧ c ≤ 13)))
        (d :: (ds' ++ 0 :: junk)) = d :: (ds' ++ 0 :: junk) :=
      List.dropWhile_cons_of_neg (by simp only [decide_eq_true_eq]; omega)
    have hsign : ¬(d = 45 ∨ d = 43) := by omega
    have hds : takeDigits (d :: (ds' ++ 0 :: junk)) = natDecimal n.natAbs := by
      have hform : d :: (ds' ++ 0 :: junk) = natDecimal n.natAbs ++ 0 :: junk := by
        rw [he, List.cons_append]
      rw [hform]
      exact takeDigits_decimal n.natAbs junk
    rw [hlist]
    simp only [sscanfD]
    rw [hdrop]
    simp only [List.headD_cons]
    rw [if_neg hsign, hds, if_neg hempty, if_neg (fun h => hsign (Or.inl h)),
      digitsVal_natDecimal, Int.natAbs_of_nonneg (not_lt.mp hneg)]

/-- Claim C3: for every `int` value `n` (the full `INT_MIN ≤ n ≤ INT_MAX`
range, hence also 0 and the maximum-magnitude values), setting a fresh
instance from `n` and parsing it back yields `n`. -/
theorem setFromInt_toInt_roundtrip (n : Int)
    (h1 : -2147483648 ≤ n) (h2 : n ≤ 2147483647) :
    myStringToInt (myStringSetFromInt (some myStringAllocVal) n).2 = n := by
  have hbuf : (myStringSetFromInt (some myStringAllocVal) n).2
      = some ⟨sprintfD n ++ 0 ::
            ((reallocBytes myStringAllocVal.chars (getNumOfDigits n)).drop
              (sprintfD n ++ [END_OF_C_STRING]).length),
          getNumOfDigits n⟩ := by
    simp only [myStringSetFromInt, adjustMyStringLength, listCopy_zero,
      List.append_assoc, List.singleton_append, END_OF_C_STRING]
  rw [hbuf]
  simp only [myStringToInt, sscanfD_sprintfD]

/-- Witness for C3 at `INT_MIN = -2147483648`, the most delicate
maximum-magnitude value. -/
theorem setFromInt_toInt_roundtrip_witness :
    myStringToInt (myStringSetFromInt (some myStringAllocVal) (-2147483648)).2
      = -2147483648 :=
  setFromInt_toInt_roundtrip (-2147483648) (by decide) (by decide)

/-! ### The to-integer error sentinels and the write side effect -/

/-- Counterexample to claim C8 as stated: `myStringToInt(NULL)` returns
`MYSTRING_ERROR` (the `-1` status constant), not the distinguished
sentinel `MYSTR_ERROR_CODE` (`-999`). -/
theorem myStringToInt_null_counterexample :
    myStringToInt none = MYSTRING_ERROR ∧ myStringToInt none ≠ MYSTR_ERROR_CODE := by
  decide

/-- Claim C8, amended: a NULL argument makes `myStringToInt` return the
status constant `MYSTRING_ERROR` (`-1`) — a value that coincides with the
legitimate parse of the text `"-1"` — while the distinguished sentinel
`MYSTR_ERROR_CODE` is reserved for the no-digits-parseable case. -/
theorem myStringToInt_null_amended (s : MyString) (h : sscanfD s.chars = none) :
    myStringToInt none = MYSTRING_ERROR ∧
    myStringToInt (some ⟨[45, 49], 2⟩) = MYSTRING_ERROR ∧
    myStringToInt (some s) = MYSTR_ERROR_CODE := by
  refine ⟨rfl, by decide, ?_⟩
  simp only [myStringToInt, h]

/-- Witness for C8 (amended) at the unparseable single byte `"a"`. -/
theorem myStringToInt_null_amended_witness :
    myStringToInt none = MYSTRING_ERROR ∧
    myStringToInt (some ⟨[45, 49], 2⟩) = MYSTRING_ERROR ∧
    myStringToInt (some ⟨[97], 1⟩) = MYSTR_ERROR_CODE :=
  myStringToInt_null_amended ⟨[97], 1⟩ (by decide)

/-- Claim C9: a successful `myStringWrite` closes the caller-provided
stream before returning success (and appends the exported bytes to it);
the stream is not left open for the caller. -/
theorem myStringWrite_closes_stream (s : MyString) (st : CStream) :
    (myStringWrite (some s) (some st)).1 = MYSTRING_SUCCESS ∧
    (myStringWrite (some s) (some st)).2
      = some ⟨st.contents ++
            ((s.chars.take s.len ++ [END_OF_C_STRING]).takeWhile fun c => decide (c ≠ 0)),
          false⟩ :=
  ⟨rfl, rfl⟩

/-! ### Heap lemmas for the clone claim -/

theorem readBuf_writeBuf_ne (h : BufHeap) (i j : Nat) (c : List Nat) (hij : i ≠ j) :
    readBuf (writeBuf h i c) j = readBuf h j := by
  simp [readBuf, writeBuf, List.getD_eq_getElem?_getD, List.getElem?_set_ne hij]

theorem readBuf_writeBuf_self (h : BufHeap) (i : Nat) (c : List Nat)
    (hi : i < h.bufs.length) :
    readBuf (writeBuf h i c) i = c := by
  simp [readBuf, writeBuf, List.getD_eq_getElem?_getD, List.getElem?_set_self, hi]

theorem writeBuf_length (h : BufHeap) (i : Nat) (c : List Nat) :
    (writeBuf h i c).bufs.length = h.bufs.length := by
  simp [writeBuf]

theorem readBuf_alloc_lt (h : BufHeap) (c : List Nat) (j : Nat)
    (hj : j < h.bufs.length) :
    readBuf (allocBuf h c).1 j = readBuf h j := by
  simp only [readBuf, allocBuf]
  rw [List.getD_append _ _ _ _ hj]

theorem readBuf_alloc_new (h : BufHeap) (c : List Nat) :
    readBuf (allocBuf h c).1 h.bufs.length = c := by
  simp only [readBuf, allocBuf]
  rw [List.getD_append_right _ _ _ _ le_rfl]
  simp

theorem alloc_length (h : BufHeap) (c : List Nat) :
    (allocBuf h c).1.bufs.length = h.bufs.length + 1 := by
  simp [allocBuf]

theorem getD_take_lt (l : List Nat) (n j : Nat) (hj : j < n) :
    (l.take n).getD j 0 = l.getD j 0 := by
  simp [List.getD_eq_getElem?_getD, List.getElem?_take, hj]

/-- No heap operation of `myStringSetFromMyString` touches a buffer other
than the receiver's own (a fresh allocation in the empty case, two writes
to the receiver's buffer otherwise). -/
theorem readBuf_setFromMyStringH_ne (h : BufHeap) (dst other : MSRef) (j : Nat)
    (hj1 : j ≠ dst.buf) (hj2 : j < h.bufs.length) :
    readBuf (myStringSetFromMyStringH h dst other).1 j = readBuf h j := by
  unfold myStringSetFromMyStringH
  by_cases h0 : other.len = EMPTY_STRING_LENGTH
  · rw [if_pos h0]
    exact readBuf_alloc_lt h [0] j hj2
  · rw [if_neg h0]
    simp only [adjustMyStringLengthH]
    rw [readBuf_writeBuf_ne _ _ _ _ (fun e => hj1 e.symm),
      readBuf_writeBuf_ne _ _ _ _ (fun e => hj1 e.symm)]

/-- Claim C7: `myStringClone` deep-copies.  For a live, coherent instance
`a`, the clone exists, lives in a buffer distinct from `a`'s, compares
equal to `a` under `myStringEqual`, and neither the cloning itself nor
any subsequent mutation of the clone's buffer (an arbitrary overwrite
`g`, or a whole `myStringSetFromMyString` from any instance `other`)
changes the bytes stored at `a`'s buffer. -/
theorem myStringClone_spec (h : BufHeap) (a : MSRef) (g : List Nat → List Nat)
    (other : MSRef) (ha : a.buf < h.bufs.length)
    (hw : a.len ≤ (readBuf h a.buf).length) :
    (myStringCloneH h (some a)).2 = some (theClone h a) ∧
    (theClone h a).buf ≠ a.buf ∧
    readBuf (myStringCloneH h (some a)).1 a.buf = readBuf h a.buf ∧
    myStringEqualH (myStringCloneH h (some a)).1 (theClone h a) a = TRUE ∧
    readBuf (writeBuf (myStringCloneH h (some a)).1 (theClone h a).buf
        (g (readBuf (myStringCloneH h (some a)).1 (theClone h a).buf))) a.buf
      = readBuf h a.buf ∧
    readBuf (myStringSetFromMyStringH (myStringCloneH h (some a)).1 (theClone h a)
        other).1 a.buf
      = readBuf h a.buf := by
  have hclone1 : (myStringCloneH h (some a)).1
      = (myStringSetFromMyStringH (allocBuf h [0]).1 ⟨h.bufs.length, 0⟩ a).1 := rfl
  have hclone2 : (myStringCloneH h (some a)).2
      = some ((myStringSetFromMyStringH (allocBuf h [0]).1 ⟨h.bufs.length, 0⟩ a).2) := rfl
  have halen : (allocBuf h [0]).1.bufs.length = h.bufs.length + 1 := alloc_length h [0]
  have hane : a.buf ≠ h.bufs.length := by omega
  have hframe : readBuf (myStringCloneH h (some a)).1 a.buf = readBuf h a.buf := by
    rw [hclone1, readBuf_setFromMyStringH_ne _ _ _ _ hane (by omega),
      readBuf_alloc_lt _ _ _ ha]
  have hRa := readBuf_alloc_lt h [0] a.buf ha
  by_cases h0 : a.len = 0
  · have hset : myStringSetFromMyStringH (allocBuf h [0]).1 ⟨h.bufs.length, 0⟩ a
        = (⟨(allocBuf h [0]).1.bufs ++ [[0]]⟩, ⟨(allocBuf h [0]).1.bufs.length, 0⟩) := by
      simp [myStringSetFromMyStringH, EMPTY_STRING_LENGTH, h0, allocBuf]
    have hthe : theClone h a = ⟨(allocBuf h [0]).1.bufs.length, 0⟩ := by
      rw [theClone, hclone2, hset]
      rfl
    have hcbuf : readBuf (myStringCloneH h (some a)).1 (allocBuf h [0]).1.bufs.length
        = [0] := by
      rw [hclone1, hset]
      exact readBuf_alloc_new (allocBuf h [0]).1 [0]
    refine ⟨by rw [hclone2, hset, hthe], by rw [hthe]; simp; omega, hframe, ?_, ?_, ?_⟩
    · rw [hthe]
      unfold myStringEqualH toPure
      rw [hcbuf, hframe]
      simp [myStringEqual, myStringCompare, myStringLen, h0, memcmp_len_zero,
        EQUAL_STRINGS, TRUE]
    · rw [hthe]
      rw [readBuf_writeBuf_ne _ _ _ _ (by simp; omega), hframe]
    · rw [hthe]
      rw [readBuf_setFromMyStringH_ne _ _ _ _ (by simp; omega)
          (by rw [hclone1, hset]; simp [halen]; omega),
        hframe]
  · have hset : myStringSetFromMyStringH (allocBuf h [0]).1 ⟨h.bufs.length, 0⟩ a
        = (writeBuf
            (writeBuf (allocBuf h [0]).1 h.bufs.length
              (reallocBytes (readBuf (allocBuf h [0]).1 h.bufs.length) a.len))
            h.bufs.length
            (listCopy
              (readBuf
                (writeBuf (allocBuf h [0]).1 h.bufs.length
                  (reallocBytes (readBuf (allocBuf h [0]).1 h.bufs.length) a.len))
                h.bufs.length)
              0
              ((readBuf
                  (writeBuf (allocBuf h [0]).1 h.bufs.length
                    (reallocBytes (readBuf (allocBuf h [0]).1 h.bufs.length) a.len))
                  a.buf).take a.len)),
          ⟨h.bufs.length, a.len⟩) := by
      simp [myStringSetFromMyStringH, EMPTY_STRING_LENGTH, h0, adjustMyStringLengthH]
    have hnew : readBuf (allocBuf h [0]).1 h.bufs.length = [0] := readBuf_alloc_new h [0]
    have hinner : readBuf
        (writeBuf (allocBuf h [0]).1 h.bufs.length
          (reallocBytes (readBuf (allocBuf h [0]).1 h.bufs.length) a.len))
        h.bufs.length = reallocBytes [0] a.len := by
      rw [readBuf_writeBuf_self _ _ _ (by omega), hnew]
    have hinnerA : readBuf
        (writeBuf (allocBuf h [0]).1 h.bufs.length
          (reallocBytes (readBuf (allocBuf h [0]).1 h.bufs.length) a.len))
        a.buf = readBuf h a.buf := by
      rw [readBuf_writeBuf_ne _ _ _ _ (Ne.symm hane), hRa]
    have hthe : theClone h a = ⟨h.bufs.length, a.len⟩ := by
      rw [theClone, hclone2, hset]
      rfl
    have hcopy : listCopy (reallocBytes [0] a.len) 0 ((readBuf h a.buf).take a.len)
        = (readBuf h a.buf).take a.len :=
      listCopy_realloc_exact _ _ _ (by rw [List.length_take]; omega)
    have hcbuf : readBuf (myStringCloneH h (some a)).1 h.bufs.length
        = (readBuf h a.buf).take a.len := by
      rw [hclone1, hset, hinner, hinnerA, hcopy,
        readBuf_writeBuf_self _ _ _ (by rw [writeBuf_length]; omega)]
    refine ⟨by rw [hclone2, hset, hthe], by rw [hthe]; simp; omega, hframe, ?_, ?_, ?_⟩
    · rw [hthe]
      unfold myStringEqualH toPure
      rw [hcbuf, hframe]
      have hmem : memcmp ((readBuf h a.buf).take a.len) (readBuf h a.buf) a.len = 0 :=
        memcmp_eq_zero _ _ _ (by rw [List.length_take]; omega) hw
          (fun j hj => getD_take_lt _ _ _ hj)
      have hcomp : myStringCompare (some ⟨(readBuf h a.buf).take a.len, a.len⟩)
          (some ⟨readBuf h a.buf, a.len⟩) = 0 := by
        simp [myStringCompare, myStringLen, hmem, EQUAL_STRINGS]
      simp [myStringEqual, hcomp, EQUAL_STRINGS, TRUE]
    · rw [hthe]
      rw [readBuf_writeBuf_ne _ _ _ _ (Ne.symm hane), hframe]
    · rw [hthe]
      rw [readBuf_setFromMyStringH_ne _ _ _ _ (by simpa using hane)
          (by rw [hclone1, hset, writeBuf_length, writeBuf_length]; omega),
        hframe]

/-- Witness for C7 at the one-buffer heap holding `[97]` (`"a"`), an
instance covering it, an arbitrary concrete mutation image and setter
source. -/
theorem myStringClone_spec_witness :
    (myStringCloneH ⟨[[97]]⟩ (some ⟨0, 1⟩)).2 = some (theClone ⟨[[97]]⟩ ⟨0, 1⟩) ∧
    (theClone ⟨[[97]]⟩ ⟨0, 1⟩).buf ≠ (⟨0, 1⟩ : MSRef).buf ∧
    readBuf (myStringCloneH ⟨[[97]]⟩ (some ⟨0, 1⟩)).1 (⟨0, 1⟩ : MSRef).buf
      = readBuf ⟨[[97]]⟩ (⟨0, 1⟩ : MSRef).buf ∧
    myStringEqualH (myStringCloneH ⟨[[97]]⟩ (some ⟨0, 1⟩)).1 (theClone ⟨[[97]]⟩ ⟨0, 1⟩)
        ⟨0, 1⟩ = TRUE ∧
    readBuf (writeBuf (myStringCloneH ⟨[[97]]⟩ (some ⟨0, 1⟩)).1
        (theClone ⟨[[97]]⟩ ⟨0, 1⟩).buf
        ((fun _ => [1, 2, 3])
          (readBuf (myStringCloneH ⟨[[97]]⟩ (some ⟨0, 1⟩)).1
            (theClone ⟨[[97]]⟩ ⟨0, 1⟩).buf))) (⟨0, 1⟩ : MSRef).buf
      = readBuf ⟨[[97]]⟩ (⟨0, 1⟩ : MSRef).buf ∧
    readBuf (myStringSetFromMyStringH (myStringCloneH ⟨[[97]]⟩ (some ⟨0, 1⟩)).1
        (theClone ⟨[[97]]⟩ ⟨0, 1⟩) ⟨0, 0⟩).1 (⟨0, 1⟩ : MSRef).buf
      = readBuf ⟨[[97]]⟩ (⟨0, 1⟩ : MSRef).buf :=
  myStringClone_spec ⟨[[97]]⟩ ⟨0, 1⟩ (fun _ => [1, 2, 3]) ⟨0, 0⟩ (by decide) (by decide)

example : myStringCompare (some ⟨[97, 98, 99], 3⟩) (some ⟨[97, 98], 2⟩) = 1 := by decide
example : myStringCompare (some ⟨[97], 1⟩) (some ⟨[98], 1⟩) = -1 := by decide
example : myStringCompare none (some ⟨[], 0⟩) = -999 := by decide
example :
    myStringSetFromCString (some myStringAllocVal) (some [97, 98, 0]) =
      (0, some ⟨[97, 98], 2⟩) := by decide
example :
    myStringToCString (myStringSetFromCString (some myStringAllocVal) (some [97, 98, 0])).2 =
      some [97, 98, 0] := by decide
example :
    myStringCat (some ⟨[104, 105], 2⟩) (some ⟨[33], 1⟩) = (0, some ⟨[104, 105, 33], 3⟩) := by
  decide
-- the test scenario myStringFilterNormal: "abcz" filtered by a<c<g gives "bc"
example :
    myStringFilter (some ⟨[97, 98, 99, 122], 4⟩)
        (some fun c => decide (97 < c ∧ c < 103)) = (0, some ⟨[98, 99], 2⟩) := by decide
-- roundtrip through the int conversions at -123456789 (test myStringSetFromIntNormal)
example :
    myStringToInt (myStringSetFromInt (some myStringAllocVal) (-123456789)).2 =
      -123456789 := by decide
example : myStringToInt none = -1 := by decide
example : myStringToInt (some ⟨[97], 1⟩) = -999 := by decide
example : sprintfD (-123) = [45, 49, 50, 51] := by decide
example : getNumOfDigits (-123) = 4 ∧ getNumOfDigits 0 = 1 ∧ getNumOfDigits 7 = 1 := by decide
example :
    myStringCustomCompare (some ⟨[97], 1⟩) (some ⟨[98], 1⟩)
      (some fun _ _ => (5 : Int)) = 1 := by decide
example :
    (myStringWrite (some ⟨[104, 105], 2⟩) (some ⟨[], true⟩)) =
      (0, some ⟨[104, 105], false⟩) := by decide
example : theClone ⟨[[97]]⟩ ⟨0, 1⟩ = ⟨1, 1⟩ := by decide
example : readBuf (myStringCloneH ⟨[[97]]⟩ (some ⟨0, 1⟩)).1 1 = [97] := by decide
example : myStringEqualH (myStringCloneH ⟨[[97]]⟩ (some ⟨0, 1⟩)).1 ⟨1, 1⟩ ⟨0, 1⟩ = 1 := by
  decide
